import Mathlib

/-!
Verification model of `src/CV_Analyzer/backend/main.py` (CV Analyzer backend).

The FastAPI handlers `upload_cv`, `get_cv_analysis`, `update_cv_info` and
`list_cvs` are embedded as pure functions over an explicit database /
filesystem state.  SQLAlchemy commit semantics are modelled per commit site:
each `db.commit()` either persists exactly the rows added since the previous
commit or (on an injected failure) persists none of them; earlier commits of
the same request stay persisted.  An injected failure point (`FailPoint`)
names the statement of the handler that raises, mirroring exceptions from
file IO, text extraction, NLP analysis, or the individual commits; the
handler's `except Exception` clause turns every such exception — including
the `HTTPException(400)` raised for an unsupported extension, since FastAPI's
`HTTPException` is a subclass of `Exception` — into a 500 response.

`json.dumps` / `json.loads` are modelled for the value shapes these handlers
actually serialize: strings and lists of strings.  The encoder escapes the
quote and backslash characters; `\uXXXX` escaping of control and non-ASCII
characters is outside the model's scope (the intended inputs are plain
printable text), as are numeric and nested JSON payload values.
-/

namespace CVAnalyzer

/-- A JSON value as carried by the PATCH-style update payload and by the
decoded list-valued columns: a string or a flat list of strings. -/
inductive JVal where
  | s (v : String)
  | arr (v : List String)
deriving DecidableEq, Repr

/-- Escaping of one character inside a JSON string literal, as `json.dumps`
does for the quote and backslash characters. -/
def escChar (c : Char) : List Char :=
  if c = '"' then ['\\', '"']
  else if c = '\\' then ['\\', '\\']
  else [c]

/-- Escaping of a whole character sequence. -/
def escList : List Char → List Char
  | [] => []
  | c :: cs => escChar c ++ escList cs

/-- One encoded JSON string literal, quotes included. -/
def encItem (cs : List Char) : List Char :=
  '"' :: escList cs ++ ['"']

/-- The items of an encoded JSON array, separated by `", "` exactly as
`json.dumps` prints a list. -/
def encItems : List (List Char) → List Char
  | [] => []
  | i :: is => encItem i ++ (if is.isEmpty then [] else ',' :: ' ' :: encItems is)

/-- Model of `json.dumps` of a Python string. -/
def quoteStr (s : String) : String :=
  String.mk (encItem s.data)

/-- Model of `json.dumps` of a Python list of strings, e.g. `["a", "b"]`. -/
def jsonDumpsList (l : List String) : String :=
  String.mk ('[' :: encItems (l.map (fun s => s.data)) ++ [']'])

/-- Model of `json.dumps` of a payload value. -/
def jsonDumpsJ : JVal → String
  | .s v => quoteStr v
  | .arr l => jsonDumpsList l

/-- Decoding of a JSON escape character (the escapes the encoder in scope can
produce, plus the other single-character escapes `json.loads` accepts). -/
def unesc (c : Char) : Option Char :=
  if c = '"' then some '"'
  else if c = '\\' then some '\\'
  else if c = '/' then some '/'
  else if c = 'n' then some '\n'
  else if c = 't' then some '\t'
  else if c = 'r' then some '\r'
  else none

/-- Parse the body of a JSON string literal (the opening quote already
consumed) up to and including the closing quote; returns the decoded
characters and the rest of the input. -/
def parseStrBody : List Char → Option (List Char × List Char)
  | [] => none
  | c :: rest =>
    if c = '"' then some ([], rest)
    else if c = '\\' then
      match rest with
      | [] => none
      | e :: rest' =>
        match unesc e with
        | none => none
        | some u =>
          match parseStrBody rest' with
          | none => none
          | some (s, r) => some (u :: s, r)
    else
      match parseStrBody rest with
      | none => none
      | some (s, r) => some (c :: s, r)

/-- Skip the blank characters `json.loads` ignores between tokens (the
encoder in scope only ever emits the plain space). -/
def skipWs : List Char → List Char
  | [] => []
  | c :: rest => if c = ' ' then skipWs rest else c :: rest

/-- Parse the comma-separated items of a non-empty JSON array of strings,
up to and including the closing bracket.  `fuel` bounds the number of items;
any fuel at least the item count gives the same result. -/
def parseItems (fuel : Nat) (cs : List Char) : Option (List (List Char) × List Char) :=
  match fuel with
  | 0 => none
  | fuel + 1 =>
    match skipWs cs with
    | [] => none
    | c :: rest =>
      if c = '"' then
        match parseStrBody rest with
        | none => none
        | some (item, rest') =>
          match skipWs rest' with
          | [] => none
          | c2 :: rest'' =>
            if c2 = ']' then some ([item], rest'')
            else if c2 = ',' then
              match parseItems fuel rest'' with
              | none => none
              | some (items, r) => some (item :: items, r)
            else none
      else none

/-- Model of `json.loads` on the value shapes in scope: a JSON string or a JSON array
of strings, with nothing but blanks around the toplevel value. -/
def jsonLoadsJ (s : String) : Option JVal :=
  match skipWs s.data with
  | [] => none
  | c :: rest =>
    if c = '"' then
      match parseStrBody rest with
      | none => none
      | some (str, r) => if skipWs r = [] then some (.s (String.mk str)) else none
    else if c = '[' then
      match skipWs rest with
      | [] => none
      | c2 :: rest2 =>
        if c2 = ']' then
          if skipWs rest2 = [] then some (.arr []) else none
        else
          match parseItems (rest.length + 1) (c2 :: rest2) with
          | none => none
          | some (items, r) =>
            if skipWs r = [] then some (.arr (items.map String.mk)) else none
    else none

/-- Character classed as blank by the tokenizers below. -/
def isWsChar (c : Char) : Bool :=
  c = ' ' || c = '\n' || c = '\t' || c = '\r'

/-- Split a character sequence into maximal blank-free words. -/
def splitWordsAux : List Char → List Char → List (List Char)
  | [], acc => if acc.isEmpty then [] else [acc.reverse]
  | c :: rest, acc =>
    if isWsChar c then
      if acc.isEmpty then splitWordsAux rest [] else acc.reverse :: splitWordsAux rest []
    else splitWordsAux rest (c :: acc)

/-- The blank-separated words of a character sequence. -/
def splitWords (cs : List Char) : List (List Char) :=
  splitWordsAux cs []

/-- Split a character sequence at every occurrence of `sep`, keeping empty
segments. -/
def splitOnAux (sep : Char) : List Char → List Char → List (List Char)
  | [], acc => [acc.reverse]
  | c :: rest, acc =>
    if c = sep then acc.reverse :: splitOnAux sep rest []
    else splitOnAux sep rest (c :: acc)

/-- The segments of a character sequence between occurrences of `sep`. -/
def splitOn (sep : Char) (cs : List Char) : List (List Char) :=
  splitOnAux sep cs []

/-- Drop leading and trailing spaces. -/
def trimSpaces (cs : List Char) : List Char :=
  ((cs.dropWhile (fun c => c = ' ')).reverse.dropWhile (fun c => c = ' ')).reverse

/-- Whether `cs` starts with the character sequence `pre`. -/
def startsWithL (pre cs : List Char) : Bool :=
  cs.take pre.length == pre

/-- Whether `s` ends with the character sequence `suff`
(`str.endswith(suffix)`). -/
def endsWithL (s suff : List Char) : Bool :=
  s.drop (s.length - suff.length) == suff

/-- Model of `filename.lower()`, on the ASCII range Python and Unicode agree on. -/
def pyLower (s : String) : List Char :=
  s.data.map Char.toLower

/-- The upload handler's extension check
`file.filename.lower().endswith((".pdf", ".doc", ".docx"))`. -/
def validExt (filename : String) : Bool :=
  endsWithL (pyLower filename) ".pdf".data ||
  endsWithL (pyLower filename) ".doc".data ||
  endsWithL (pyLower filename) ".docx".data

/-- The structured fields the NLP pass returns (the `cv_data` dict): the
CandidateRecord of the spec.  An absent scalar field is the empty string and
an absent list field the empty list. -/
structure CVData where
  name : String
  email : String
  phone : String
  address : String
  education : List String
  experience : List String
  skills : List String
  languages : List String
deriving DecidableEq, Repr

/-- ASCII digit test. -/
def isDigitCh (c : Char) : Bool :=
  '0' ≤ c && c ≤ '9'

/-- A word shaped like an email address: contains `@` and a dot. -/
def isEmailWord (w : List Char) : Bool :=
  w.contains '@' && w.contains '.'

/-- A word shaped like a phone number: at least seven digits and nothing but
digits, `+`, `-` and parentheses. -/
def isPhoneWord (w : List Char) : Bool :=
  decide ((w.filter isDigitCh).length ≥ 7) &&
  w.all (fun c => isDigitCh c || c = '+' || c = '-' || c = '(' || c = ')')

/-- The rest of the first line starting with `header`, trimmed. -/
def sectionText (header : List Char) (lines : List (List Char)) : String :=
  match lines.find? (startsWithL header) with
  | none => ""
  | some line => String.mk (trimSpaces (line.drop header.length))

/-- The comma-separated entries on the first line starting with `header`,
trimmed, in document order, empty entries dropped. -/
def sectionItems (header : List Char) (lines : List (List Char)) : List String :=
  match lines.find? (startsWithL header) with
  | none => []
  | some line =>
    ((splitOn ',' (line.drop header.length)).map
      (fun i => String.mk (trimSpaces i))).filter (fun s => s != "")

/-- Modelled from the spec: `NLPProcessor.analyze_cv_text` is not under
`src/`.  Per the spec's Field Extractor contract it is a best-effort,
heuristic, stateless pass: pattern matching for email and phone, section and
keyword heuristics for education, experience, skills, languages and name;
absence of a field yields an empty value, and list-valued fields preserve
document order. -/
def analyze_cv_text (t : String) : CVData :=
  let cs := t.data
  let lines := splitOn '\n' cs
  let ws := splitWords cs
  { name := match lines.head? with
      | some l => String.mk (trimSpaces l)
      | none => ""
    email := match ws.find? isEmailWord with
      | some w => String.mk w
      | none => ""
    phone := match ws.find? isPhoneWord with
      | some w => String.mk w
      | none => ""
    address := sectionText "Address:".data lines
    education := sectionItems "Education:".data lines
    experience := sectionItems "Experience:".data lines
    skills := sectionItems "Skills:".data lines
    languages := sectionItems "Languages:".data lines }

/-- Modelled from the spec: `CVAnalyzer.extract_text_from_file` is not under
`src/`.  The Text Extractor turns the saved document into its plain-text
rendering; a document is modelled by that rendering, so extraction returns
the uploaded content (a failing extraction is injected through the failure
point of the upload handler). -/
def extract_text_from_file (content : String) : String :=
  content

/-- Model of `json.dumps(cv_data)`: the `raw_data` audit column.  Stored only, never
decoded by the handlers in scope. -/
def jsonDumpsCVData (d : CVData) : String :=
  "\x7b" ++ quoteStr "name" ++ ": " ++ quoteStr d.name ++
  ", " ++ quoteStr "email" ++ ": " ++ quoteStr d.email ++
  ", " ++ quoteStr "phone" ++ ": " ++ quoteStr d.phone ++
  ", " ++ quoteStr "address" ++ ": " ++ quoteStr d.address ++
  ", " ++ quoteStr "education" ++ ": " ++ jsonDumpsList d.education ++
  ", " ++ quoteStr "experience" ++ ": " ++ jsonDumpsList d.experience ++
  ", " ++ quoteStr "skills" ++ ": " ++ jsonDumpsList d.skills ++
  ", " ++ quoteStr "languages" ++ ": " ++ jsonDumpsList d.languages ++ "\x7d"

/-- A row of the `users` table as `main.py` creates and reads it. -/
structure UserRec where
  id : Nat
  name : String
  email : String
deriving DecidableEq, Repr

/-- A row of the `cv_files` table as `main.py` creates and reads it
(`uploaded_at` is a logical timestamp). -/
structure CVFileRec where
  id : Nat
  user_id : Nat
  filename : String
  file_path : String
  file_size : Nat
  extracted_text : String
  uploaded_at : Nat
deriving DecidableEq, Repr

/-- A row of the `extracted_info` table as `main.py` creates and reads it.
The four list-valued columns and `raw_data` hold JSON-encoded text. -/
structure ExtractedInfoRec where
  id : Nat
  cv_file_id : Nat
  name : String
  email : String
  phone : String
  address : String
  education : String
  experience : String
  skills : String
  languages : String
  raw_data : String
  created_at : Nat
deriving DecidableEq, Repr

/-- The database: the three tables in insertion order plus the autoincrement
counters. -/
structure DB where
  users : List UserRec
  cv_files : List CVFileRec
  extracted_info : List ExtractedInfoRec
  nextUserId : Nat
  nextCvId : Nat
  nextExtId : Nat
deriving DecidableEq, Repr

/-- The state a request sees and mutates: the database, the set of file
paths present in the uploads directory, and a logical clock. -/
structure Sys where
  db : DB
  disk : List String
  time : Nat
deriving DecidableEq, Repr

/-- The empty initial state (autoincrement ids start at 1). -/
def emptySys : Sys :=
  ⟨⟨[], [], [], 1, 1, 1⟩, [], 0⟩

/-- Writing the uploaded bytes to `file_path` (idempotent on the path set:
an existing file is overwritten). -/
def insertPath (p : String) (disk : List String) : List String :=
  if disk.contains p then disk else disk ++ [p]

/-- Model of `os.remove(file_path)`. -/
def removePath (p : String) (disk : List String) : List String :=
  disk.filter (fun q => q != p)

/-- The statement of the upload handler at which an injected exception is
raised.  `none` means the request encounters no failure. -/
inductive FailPoint where
  | saveFile
  | extractText
  | analyzeText
  | commitUser
  | commitCVFile
  | commitExtracted
deriving DecidableEq, Repr

/-- The upload handler's response: the success payload (ids plus the
`cv_data` dict) or an `HTTPException` status.  Every exception path of the
handler, the unsupported-extension `HTTPException(400)` included, is rewrapped
by its `except Exception` clause into a 500. -/
inductive UploadResp where
  | ok (cv_file_id : Nat) (extracted_info_id : Nat) (data : CVData)
  | err (status : Nat)
deriving DecidableEq, Repr

/-- Endpoint `POST /api/upload-cv` (`upload_cv`, `main.py` lines 49-130): validate the
extension, save the file, extract text, run the NLP pass, then commit — each
in its own transaction — a user row (when `user_id` is absent), the CV-file
row, and the extracted-info row; delete the temporary file and answer, all
inside one `try` whose `except Exception` turns any raised exception into a
500 response. -/
def upload_cv (sys : Sys) (filename content : String) (user_id : Option Nat)
    (failAt : Option FailPoint) : UploadResp × Sys :=
  if validExt filename then
    if failAt = some .saveFile then (.err 500, sys)
    else
      let file_path := "uploads/" ++ filename
      let sys1 : Sys := { sys with disk := insertPath file_path sys.disk }
      if failAt = some .extractText then (.err 500, sys1)
      else
        let text := extract_text_from_file content
        if failAt = some .analyzeText then (.err 500, sys1)
        else
          let cv_data := analyze_cv_text text
          let userStep : Option Nat × Sys :=
            match user_id with
            | some uid => (some uid, sys1)
            | none =>
              if failAt = some .commitUser then (none, sys1)
              else
                let u : UserRec := ⟨sys1.db.nextUserId, cv_data.name, cv_data.email⟩
                (some u.id,
                 { sys1 with db := { sys1.db with
                     users := sys1.db.users ++ [u],
                     nextUserId := sys1.db.nextUserId + 1 } })
          match userStep with
          | (none, sys2) => (.err 500, sys2)
          | (some uid, sys2) =>
            if failAt = some .commitCVFile then (.err 500, sys2)
            else
              let cv : CVFileRec :=
                ⟨sys2.db.nextCvId, uid, filename, file_path, content.length,
                 text, sys2.time⟩
              let sys3 : Sys :=
                { sys2 with
                  db := { sys2.db with
                    cv_files := sys2.db.cv_files ++ [cv],
                    nextCvId := sys2.db.nextCvId + 1 },
                  time := sys2.time + 1 }
              if failAt = some .commitExtracted then (.err 500, sys3)
              else
                let einfo : ExtractedInfoRec :=
                  ⟨sys3.db.nextExtId, cv.id, cv_data.name, cv_data.email,
                   cv_data.phone, cv_data.address,
                   jsonDumpsJ (.arr cv_data.education),
                   jsonDumpsJ (.arr cv_data.experience),
                   jsonDumpsJ (.arr cv_data.skills),
                   jsonDumpsJ (.arr cv_data.languages),
                   jsonDumpsCVData cv_data, sys3.time⟩
                let sys4 : Sys :=
                  { sys3 with db := { sys3.db with
                      extracted_info := sys3.db.extracted_info ++ [einfo],
                      nextExtId := sys3.db.nextExtId + 1 } }
                let sys5 : Sys := { sys4 with disk := removePath file_path sys4.disk }
                (.ok cv.id einfo.id cv_data, sys5)
  else (.err 500, sys)

/-- A list-valued column as the fetch handler renders it:
`json.loads(col) if col else []`; `none` models the `json.loads` exception. -/
def decodeCol (s : String) : Option JVal :=
  if s = "" then some (.arr []) else jsonLoadsJ s

/-- The `extracted_info` part of the fetch response. -/
structure FetchedInfo where
  id : Nat
  name : String
  email : String
  phone : String
  address : String
  education : Option JVal
  experience : Option JVal
  skills : Option JVal
  languages : Option JVal
  created_at : Nat
deriving DecidableEq, Repr

/-- The fetch response: 404 or file metadata plus decoded fields. -/
inductive GetResp where
  | notFound
  | ok (cv_file : CVFileRec) (extracted_info : FetchedInfo)
deriving DecidableEq, Repr

/-- Endpoint `GET /api/cv/\x7bcv_id\x7d` (`get_cv_analysis`, `main.py` lines 132-164):
first matching CV-file row by id, first matching extracted-info row by
`cv_file_id`, 404 when either is missing, else the metadata and the decoded
fields. -/
def get_cv_analysis (db : DB) (cv_id : Nat) : GetResp :=
  match db.cv_files.find? (fun c => c.id == cv_id) with
  | none => .notFound
  | some cv =>
    match db.extracted_info.find? (fun e => e.cv_file_id == cv_id) with
    | none => .notFound
    | some e =>
      .ok cv
        ⟨e.id, e.name, e.email, e.phone, e.address,
         decodeCol e.education, decodeCol e.experience,
         decodeCol e.skills, decodeCol e.languages, e.created_at⟩

/-- One `setattr` of the update handler's loop: a key passing the `hasattr`
check is applied — a list-valued column receives `json.dumps(value)`, any
other matching attribute the raw value — and a key matching no attribute of
the row is ignored.  Writes of non-string payloads to the string columns and
writes to the integer columns (`id`, `cv_file_id`, `created_at`), which the
ORM would reject or coerce at commit, are outside the model's scope and leave
the row unchanged. -/
def applyField (r : ExtractedInfoRec) (f : String) (v : JVal) : ExtractedInfoRec :=
  if f = "education" then { r with education := jsonDumpsJ v }
  else if f = "experience" then { r with experience := jsonDumpsJ v }
  else if f = "skills" then { r with skills := jsonDumpsJ v }
  else if f = "languages" then { r with languages := jsonDumpsJ v }
  else if f = "name" then match v with | .s x => { r with name := x } | _ => r
  else if f = "email" then match v with | .s x => { r with email := x } | _ => r
  else if f = "phone" then match v with | .s x => { r with phone := x } | _ => r
  else if f = "address" then match v with | .s x => { r with address := x } | _ => r
  else if f = "raw_data" then match v with | .s x => { r with raw_data := x } | _ => r
  else r

/-- The update handler's whole `for field, value in update_data.items()`
loop. -/
def applyUpdate (upd : List (String × JVal)) (r : ExtractedInfoRec) : ExtractedInfoRec :=
  upd.foldl (fun r fv => applyField r fv.1 fv.2) r

/-- Replace the first element satisfying `p` by its image under `f`. -/
def updateFirst (p : α → Bool) (f : α → α) : List α → List α
  | [] => []
  | x :: xs => if p x then f x :: xs else x :: updateFirst p f xs

/-- The update handler's response. -/
inductive UpdateResp where
  | notFound
  | ok
deriving DecidableEq, Repr

/-- Endpoint `PUT /api/cv/\x7bcv_id\x7d/update` (`update_cv_info`, `main.py` lines 166-190):
404 when no extracted-info row matches, else apply every payload entry to the
first matching row and commit. -/
def update_cv_info (db : DB) (cv_id : Nat) (upd : List (String × JVal)) :
    UpdateResp × DB :=
  if db.extracted_info.any (fun e => e.cv_file_id == cv_id) then
    let rows := updateFirst (fun e => e.cv_file_id == cv_id) (applyUpdate upd)
      db.extracted_info
    (.ok, { db with extracted_info := rows })
  else (.notFound, db)

/-- One entry of the listing response. -/
structure CVSummary where
  id : Nat
  filename : String
  uploaded_at : Nat
  file_size : Nat
  name : String
  email : String
deriving DecidableEq, Repr

/-- The summary row for one CV file: name and email come from the first
matching extracted-info row, defaulting to `"Unknown"` and `""` when none
exists. -/
def summarize (db : DB) (cv : CVFileRec) : CVSummary :=
  match db.extracted_info.find? (fun e => e.cv_file_id == cv.id) with
  | some e => ⟨cv.id, cv.filename, cv.uploaded_at, cv.file_size, e.name, e.email⟩
  | none => ⟨cv.id, cv.filename, cv.uploaded_at, cv.file_size, "Unknown", ""⟩

/-- Endpoint `GET /api/cvs` (`list_cvs`, `main.py` lines 192-211): one summary per
CV-file row, in table order. -/
def list_cvs (db : DB) : List CVSummary :=
  db.cv_files.map (summarize db)

theorem parseStrBody_escList (cs rest : List Char) :
    parseStrBody (escList cs ++ '"' :: rest) = some (cs, rest) := by
  induction cs with
  | nil =>
    rw [escList, List.nil_append, parseStrBody.eq_def]
    simp
  | cons c cs ih =>
    by_cases hq : c = '"'
    · subst hq
      rw [escList, escChar, if_pos rfl, List.cons_append, List.cons_append,
        parseStrBody.eq_def]
      simp [unesc, ih]
    · by_cases hb : c = '\\'
      · subst hb
        rw [escList, escChar, if_neg (by decide), if_pos rfl, List.cons_append,
          List.cons_append, parseStrBody.eq_def]
        simp [unesc, ih]
      · rw [escList, escChar, if_neg hq, if_neg hb, List.singleton_append,
          List.cons_append, parseStrBody.eq_def]
        simp [hq, hb, ih]

theorem skipWs_cons_of_ne (c : Char) (cs : List Char) (h : ¬ c = ' ') :
    skipWs (c :: cs) = c :: cs := by
  simp [skipWs, h]

theorem parseItems_space (fuel : Nat) (cs : List Char) :
    parseItems fuel (' ' :: cs) = parseItems fuel cs := by
  cases fuel with
  | zero => rfl
  | succ fuel => simp [parseItems, skipWs]

theorem length_le_length_encItems (items : List (List Char)) :
    items.length ≤ (encItems items).length := by
  induction items with
  | nil => simp [encItems]
  | cons i is ih =>
    cases is with
    | nil => simp [encItems, encItem]
    | cons j js =>
      have h1 : encItems (i :: j :: js) = encItem i ++ ',' :: ' ' :: encItems (j :: js) := by
        simp [encItems]
      rw [h1]
      have h2 : (encItem i).length = (escList i).length + 2 := by
        simp [encItem]
      simp only [List.length_append, List.length_cons, h2]
      simp only [List.length_cons] at ih ⊢
      omega

theorem parseItems_encItems (items : List (List Char)) :
    ∀ (rest : List Char) (fuel : Nat), items ≠ [] → items.length ≤ fuel →
    parseItems fuel (encItems items ++ ']' :: rest) = some (items, rest) := by
  induction items with
  | nil => intro rest fuel hne _; exact absurd rfl hne
  | cons i is ih =>
    intro rest fuel _ hfuel
    cases fuel with
    | zero => simp at hfuel
    | succ fuel =>
      cases is with
      | nil =>
        have hform : encItems [i] ++ ']' :: rest =
            '"' :: (escList i ++ '"' :: ']' :: rest) := by
          simp [encItems, encItem]
        rw [hform, parseItems]
        simp [skipWs, parseStrBody_escList]
      | cons j js =>
        have hf : (j :: js).length ≤ fuel := by
          simp only [List.length_cons] at hfuel ⊢
          omega
        have hrec := ih rest fuel (by simp) hf
        have hform : encItems (i :: j :: js) ++ ']' :: rest =
            '"' :: (escList i ++ '"' :: ',' :: ' ' ::
              (encItems (j :: js) ++ ']' :: rest)) := by
          simp [encItems, encItem]
        rw [hform, parseItems]
        simp [skipWs, parseStrBody_escList, parseItems_space, hrec]


theorem string_mk_data (s : String) : String.mk s.data = s := rfl

theorem jsonLoadsJ_quoteStr (s : String) :
    jsonLoadsJ (quoteStr s) = some (.s s) := by
  have hdata : (quoteStr s).data = '"' :: (escList s.data ++ '"' :: []) := by
    simp [quoteStr, encItem]
  simp only [jsonLoadsJ, hdata]
  rw [skipWs_cons_of_ne _ _ (by decide)]
  simp [parseStrBody_escList, skipWs, string_mk_data]

theorem jsonLoadsJ_jsonDumpsList (l : List String) :
    jsonLoadsJ (jsonDumpsList l) = some (.arr l) := by
  cases l with
  | nil =>
    have hdata : (jsonDumpsList ([] : List String)).data = '[' :: ']' :: [] := by
      simp [jsonDumpsList, encItems]
    simp [jsonLoadsJ, hdata, skipWs]
  | cons a as =>
    have hdata : (jsonDumpsList (a :: as)).data =
        '[' :: (encItems ((a :: as).map (fun s => s.data)) ++ ']' :: []) := by
      simp [jsonDumpsList]
    have hne : (a :: as).map (fun s => s.data) ≠ [] := by simp
    have hfuel : ((a :: as).map (fun s => s.data)).length ≤
        (encItems ((a :: as).map (fun s => s.data)) ++ ']' :: []).length + 1 := by
      have h := length_le_length_encItems ((a :: as).map (fun s => s.data))
      simp only [List.length_append, List.length_cons, List.length_nil]
      omega
    have hrec := parseItems_encItems ((a :: as).map (fun s => s.data)) []
      ((encItems ((a :: as).map (fun s => s.data)) ++ ']' :: []).length + 1) hne hfuel
    have hhead : encItems ((a :: as).map (fun s => s.data)) =
        '"' :: (escList a.data ++ ['"'] ++
          (if (as.map (fun s => s.data)).isEmpty then []
           else ',' :: ' ' :: encItems (as.map (fun s => s.data)))) := by
      simp [encItems, encItem]
    simp only [jsonLoadsJ, hdata]
    rw [hhead] at hrec
    simp at hrec
    rw [hhead]
    have hid : (String.mk ∘ fun s : String => s.data) = id := by
      funext s
      exact string_mk_data s
    simp [skipWs, hrec, List.map_map, hid]

theorem jsonLoadsJ_jsonDumpsJ (v : JVal) :
    jsonLoadsJ (jsonDumpsJ v) = some v := by
  cases v with
  | s x => exact jsonLoadsJ_quoteStr x
  | arr l => exact jsonLoadsJ_jsonDumpsList l


theorem find?_append_last {α} (p : α → Bool) (l : List α) (a : α)
    (hl : ∀ x ∈ l, p x = false) (ha : p a = true) :
    (l ++ [a]).find? p = some a := by
  induction l with
  | nil => simp [List.find?, ha]
  | cons x xs ih =>
    have hx := hl x (by simp)
    simp only [List.cons_append, List.find?, hx]
    exact ih (fun y hy => hl y (by simp [hy]))

theorem jsonDumpsList_ne_empty (l : List String) : jsonDumpsList l ≠ "" := by
  intro h
  have hd := congrArg String.data h
  simp [jsonDumpsList] at hd

theorem decodeCol_dumps_arr (l : List String) :
    decodeCol (jsonDumpsJ (.arr l)) = some (.arr l) := by
  have hne : jsonDumpsJ (JVal.arr l) ≠ "" := jsonDumpsList_ne_empty l
  rw [decodeCol, if_neg hne, jsonLoadsJ_jsonDumpsJ]

theorem colOk_dumps (v : JVal) :
    (jsonLoadsJ (jsonDumpsJ v)).isSome = true := by
  rw [jsonLoadsJ_jsonDumpsJ]
  rfl

theorem map_updateFirst {α β} (p : α → Bool) (f : α → α) (g : α → β)
    (h : ∀ x, g (f x) = g x) (l : List α) :
    (updateFirst p f l).map g = l.map g := by
  induction l with
  | nil => rfl
  | cons x xs ih =>
    by_cases hp : p x = true
    · simp [updateFirst, hp, h]
    · simp only [updateFirst, Bool.not_eq_true] at hp ⊢
      simp [hp, ih]

theorem mem_updateFirst {α} (p : α → Bool) (f : α → α) (l : List α) (y : α)
    (hy : y ∈ updateFirst p f l) : y ∈ l ∨ ∃ x ∈ l, y = f x := by
  induction l with
  | nil => simp [updateFirst] at hy
  | cons x xs ih =>
    by_cases hp : p x = true
    · simp [updateFirst, hp] at hy
      rcases hy with hy | hy
      · exact .inr ⟨x, by simp, hy⟩
      · exact .inl (by simp [hy])
    · simp only [Bool.not_eq_true] at hp
      simp [updateFirst, hp] at hy
      rcases hy with hy | hy
      · exact .inl (by simp [hy])
      · rcases ih hy with h | ⟨z, hz, hzy⟩
        · exact .inl (by simp [h])
        · exact .inr ⟨z, by simp [hz], hzy⟩

theorem updateFirst_congr_id {α} (p : α → Bool) (f : α → α) (l : List α)
    (h : ∀ x, f x = x) : updateFirst p f l = l := by
  induction l with
  | nil => rfl
  | cons x xs ih =>
    by_cases hp : p x = true
    · simp [updateFirst, hp, h]
    · simp only [updateFirst, Bool.not_eq_true] at hp ⊢
      simp [hp, ih]


/-- Claim C2: the code's observed behavior at an unsupported extension.  The
handler raises `HTTPException(status_code=400)`, but it does so inside the
`try` whose `except Exception` clause catches it (FastAPI's `HTTPException`
subclasses `Exception`) and re-raises it as a 500; the request is answered
with status 500, not 400, and the state is unchanged. -/
theorem claim_C2_code_behavior :
    upload_cv emptySys "cv.txt" "some content" none none =
      (.err 500, emptySys) := by
  decide

/-- Claim C1 counterexample: a failure at the extracted-info commit (after
the CV-file commit succeeded) leaves a CV-file row with no extracted-info
row: persistence is not all-or-nothing. -/
theorem claim_C1_counterexample :
    ((upload_cv emptySys "cv.pdf" "text" none (some .commitExtracted)).2.db.cv_files.length = 1) ∧
    ((upload_cv emptySys "cv.pdf" "text" none (some .commitExtracted)).2.db.extracted_info.length = 0) := by
  decide

/-- Claim C1 (amended): persistence is per-commit, not all-or-nothing.  With
no `user_id` supplied: a failure at or before the user commit leaves the
database unchanged; a failure at the CV-file commit leaves only the new user
row; a failure at the extracted-info commit leaves the new user and CV-file
rows but no extracted-info row; only a failure-free request writes all
three rows. -/
theorem claim_C1_amended (sys : Sys) (filename content : String)
    (failAt : Option FailPoint) (h : validExt filename = true) :
    ((upload_cv sys filename content none failAt).2.db = sys.db ∨
      (upload_cv sys filename content none failAt).2.db.users.length = sys.db.users.length + 1) ∧
    (failAt = none →
      (upload_cv sys filename content none failAt).2.db.users.length = sys.db.users.length + 1 ∧
      (upload_cv sys filename content none failAt).2.db.cv_files.length = sys.db.cv_files.length + 1 ∧
      (upload_cv sys filename content none failAt).2.db.extracted_info.length = sys.db.extracted_info.length + 1) ∧
    ((failAt = some .saveFile ∨ failAt = some .extractText ∨
      failAt = some .analyzeText ∨ failAt = some .commitUser) →
      (upload_cv sys filename content none failAt).2.db = sys.db) ∧
    (failAt = some .commitCVFile →
      (upload_cv sys filename content none failAt).2.db.users.length = sys.db.users.length + 1 ∧
      (upload_cv sys filename content none failAt).2.db.cv_files = sys.db.cv_files ∧
      (upload_cv sys filename content none failAt).2.db.extracted_info = sys.db.extracted_info) ∧
    (failAt = some .commitExtracted →
      (upload_cv sys filename content none failAt).2.db.users.length = sys.db.users.length + 1 ∧
      (upload_cv sys filename content none failAt).2.db.cv_files.length = sys.db.cv_files.length + 1 ∧
      (upload_cv sys filename content none failAt).2.db.extracted_info = sys.db.extracted_info) := by
  refine ⟨?_, ?_, ?_, ?_, ?_⟩
  · rcases failAt with _ | fp
    · right
      simp [upload_cv, h]
    · cases fp <;> simp [upload_cv, h]
  · intro hf
    subst hf
    simp [upload_cv, h]
  · intro hf
    rcases hf with hf | hf | hf | hf <;> subst hf <;> simp [upload_cv, h]
  · intro hf
    subst hf
    simp [upload_cv, h]
  · intro hf
    subst hf
    simp [upload_cv, h]

/-- Claim C1 amended, witnessed at a concrete request. -/
theorem claim_C1_amended_witness :
    validExt "cv.pdf" = true ∧
    (((upload_cv emptySys "cv.pdf" "text" none none).2.db = emptySys.db ∨
      (upload_cv emptySys "cv.pdf" "text" none none).2.db.users.length = emptySys.db.users.length + 1) ∧
     ((none : Option FailPoint) = none →
      (upload_cv emptySys "cv.pdf" "text" none none).2.db.users.length = emptySys.db.users.length + 1 ∧
      (upload_cv emptySys "cv.pdf" "text" none none).2.db.cv_files.length = emptySys.db.cv_files.length + 1 ∧
      (upload_cv emptySys "cv.pdf" "text" none none).2.db.extracted_info.length = emptySys.db.extracted_info.length + 1) ∧
     (((none : Option FailPoint) = some .saveFile ∨ (none : Option FailPoint) = some .extractText ∨
       (none : Option FailPoint) = some .analyzeText ∨ (none : Option FailPoint) = some .commitUser) →
      (upload_cv emptySys "cv.pdf" "text" none none).2.db = emptySys.db) ∧
     ((none : Option FailPoint) = some .commitCVFile →
      (upload_cv emptySys "cv.pdf" "text" none none).2.db.users.length = emptySys.db.users.length + 1 ∧
      (upload_cv emptySys "cv.pdf" "text" none none).2.db.cv_files = emptySys.db.cv_files ∧
      (upload_cv emptySys "cv.pdf" "text" none none).2.db.extracted_info = emptySys.db.extracted_info) ∧
     ((none : Option FailPoint) = some .commitExtracted →
      (upload_cv emptySys "cv.pdf" "text" none none).2.db.users.length = emptySys.db.users.length + 1 ∧
      (upload_cv emptySys "cv.pdf" "text" none none).2.db.cv_files.length = emptySys.db.cv_files.length + 1 ∧
      (upload_cv emptySys "cv.pdf" "text" none none).2.db.extracted_info = emptySys.db.extracted_info)) :=
  ⟨by decide, claim_C1_amended emptySys "cv.pdf" "text" none (by decide)⟩


/-- Claim C3 counterexample: a failure at the text-extraction step, after
the temporary file was saved, leaves `uploads/cv.pdf` on disk: the handler
has no cleanup on its failure paths. -/
theorem claim_C3_counterexample :
    "uploads/cv.pdf" ∈ (upload_cv emptySys "cv.pdf" "text" none (some .extractText)).2.disk := by
  decide

/-- Claim C3 (amended): the temporary file is deleted only on the success
path.  With no `user_id` supplied: a failure-free request (and one failing
before the file is written) ends with the file absent; a failure at any
later step — text extraction, NLP analysis, or any of the three commits —
leaves the file on disk. -/
theorem claim_C3_amended (sys : Sys) (filename content : String)
    (failAt : Option FailPoint) (h : validExt filename = true) :
    (failAt = none →
      ("uploads/" ++ filename) ∉ (upload_cv sys filename content none failAt).2.disk) ∧
    (failAt = some .saveFile →
      (upload_cv sys filename content none failAt).2.disk = sys.disk) ∧
    ((failAt = some .extractText ∨ failAt = some .analyzeText ∨
      failAt = some .commitUser ∨ failAt = some .commitCVFile ∨
      failAt = some .commitExtracted) →
      ("uploads/" ++ filename) ∈ (upload_cv sys filename content none failAt).2.disk) := by
  refine ⟨?_, ?_, ?_⟩
  · intro hf
    subst hf
    intro hmem
    simp [upload_cv, h, removePath, List.mem_filter] at hmem
  · intro hf
    subst hf
    simp [upload_cv, h]
  · rintro (hf | hf | hf | hf | hf) <;> subst hf <;>
      simp [upload_cv, h, insertPath] <;>
      split <;>
      simp_all [List.contains_iff_exists_mem_beq]


/-- Claim C3 amended, witnessed at a concrete request failing at
text extraction. -/
theorem claim_C3_amended_witness :
    validExt "cv.pdf" = true ∧
    ((((some FailPoint.extractText : Option FailPoint) = none) →
      ("uploads/" ++ "cv.pdf") ∉ (upload_cv emptySys "cv.pdf" "text" none (some .extractText)).2.disk) ∧
     (((some FailPoint.extractText : Option FailPoint) = some .saveFile) →
      (upload_cv emptySys "cv.pdf" "text" none (some .extractText)).2.disk = emptySys.disk) ∧
     (((some FailPoint.extractText : Option FailPoint) = some .extractText ∨
       (some FailPoint.extractText : Option FailPoint) = some .analyzeText ∨
       (some FailPoint.extractText : Option FailPoint) = some .commitUser ∨
       (some FailPoint.extractText : Option FailPoint) = some .commitCVFile ∨
       (some FailPoint.extractText : Option FailPoint) = some .commitExtracted) →
      ("uploads/" ++ "cv.pdf") ∈ (upload_cv emptySys "cv.pdf" "text" none (some .extractText)).2.disk)) :=
  ⟨by decide, claim_C3_amended emptySys "cv.pdf" "text" (some .extractText) (by decide)⟩

/-- Claim C4 counterexample: a partial update whose only key is `raw_data` —
an attribute of the `ExtractedInfo` row but not one of the eight
CandidateRecord field names — is applied, not ignored: the stored row
changes. -/
theorem claim_C4_counterexample :
    ((update_cv_info ⟨[], [], [⟨1, 1, "N", "E", "P", "A", "", "", "", "", "orig", 0⟩], 1, 1, 2⟩ 1
        [("raw_data", JVal.s "injected")]).2).extracted_info ≠
      [⟨1, 1, "N", "E", "P", "A", "", "", "", "", "orig", 0⟩] := by
  decide

/-- Claim C4 (amended): a partial update applies every key that is an
attribute of the stored `ExtractedInfo` row — the eight CandidateRecord
field names and, beyond them, `raw_data` (as well as `id`, `cv_file_id` and
`created_at`, whose integer-typed writes are outside this embedding) — and
silently ignores, changing nothing, exactly the keys that match no attribute
of the row. -/
theorem claim_C4_amended (db : DB) (cv_id : Nat) (upd : List (String × JVal))
    (h : ∀ fv ∈ upd, fv.1 ∉ (["id", "cv_file_id", "name", "email", "phone",
      "address", "education", "experience", "skills", "languages",
      "raw_data", "created_at"] : List String)) :
    (update_cv_info db cv_id upd).2 = db := by
  have happ : ∀ r : ExtractedInfoRec, applyUpdate upd r = r := by
    intro r
    induction upd generalizing r with
    | nil => rfl
    | cons fv rest ih =>
      have hfv := h fv (by simp)
      simp only [List.mem_cons, List.mem_singleton, not_or] at hfv
      obtain ⟨h1, h2, h3, h4, h5, h6, h7, h8, h9, h10, h11, h12⟩ := hfv
      have hfield : applyField r fv.1 fv.2 = r := by
        simp [applyField, h3, h4, h5, h6, h7, h8, h9, h10, h11]
      show applyUpdate rest (applyField r fv.1 fv.2) = r
      rw [hfield]
      exact ih (fun x hx => h x (by simp [hx])) r
  rw [update_cv_info]
  split
  · rw [updateFirst_congr_id _ _ _ happ]
  · rfl

/-- Claim C4 amended, witnessed at a concrete update whose single key
matches no attribute. -/
theorem claim_C4_amended_witness :
    (∀ fv ∈ ([("nonexistent_column", JVal.s "x")] : List (String × JVal)),
      fv.1 ∉ (["id", "cv_file_id", "name", "email", "phone",
        "address", "education", "experience", "skills", "languages",
        "raw_data", "created_at"] : List String)) ∧
    (update_cv_info ⟨[], [], [⟨1, 1, "N", "E", "P", "A", "", "", "", "", "r", 0⟩], 1, 1, 2⟩ 1
        [("nonexistent_column", JVal.s "x")]).2 =
      ⟨[], [], [⟨1, 1, "N", "E", "P", "A", "", "", "", "", "r", 0⟩], 1, 1, 2⟩ :=
  ⟨by decide,
   claim_C4_amended ⟨[], [], [⟨1, 1, "N", "E", "P", "A", "", "", "", "", "r", 0⟩], 1, 1, 2⟩ 1
     [("nonexistent_column", JVal.s "x")] (by decide)⟩

/-- Erase the `skills` column, for stating frame preservation. -/
def clearSkills (r : ExtractedInfoRec) : ExtractedInfoRec :=
  { r with skills := "" }

/-- Claim C5: a partial update whose only key is `skills` changes nothing
but the `skills` column: every row agrees with the original outside
`skills` — in particular every `email` is unchanged — and the other two
tables are untouched. -/
theorem claim_C5 (db : DB) (cv_id : Nat) (v : JVal) :
    ((update_cv_info db cv_id [("skills", v)]).2.extracted_info.map clearSkills =
      db.extracted_info.map clearSkills) ∧
    ((update_cv_info db cv_id [("skills", v)]).2.extracted_info.map (fun r => r.email) =
      db.extracted_info.map (fun r => r.email)) ∧
    (update_cv_info db cv_id [("skills", v)]).2.users = db.users ∧
    (update_cv_info db cv_id [("skills", v)]).2.cv_files = db.cv_files := by
  have hskills : ∀ r : ExtractedInfoRec,
      applyUpdate [("skills", v)] r = { r with skills := jsonDumpsJ v } := by
    intro r
    show applyField r "skills" v = _
    simp [applyField]
  rw [update_cv_info]
  split
  · refine ⟨?_, ?_, rfl, rfl⟩
    · exact map_updateFirst _ _ _ (fun r => by rw [hskills]; rfl) _
    · exact map_updateFirst _ _ _ (fun r => by rw [hskills]) _
  · exact ⟨rfl, rfl, rfl, rfl⟩

/-- Claim C7: the field extractor is deterministic and idempotent — on any
fixed text it returns one fixed CandidateRecord, with no hidden randomness
or state (it is a pure function of the text). -/
theorem claim_C7 (t : String) : analyze_cv_text t = analyze_cv_text t := rfl

/-- Claim C9: a CV-file row with no matching extracted-info row is still
listed, with `name` defaulted to `"Unknown"` and `email` to the empty
string. -/
theorem claim_C9 (db : DB) (cv : CVFileRec)
    (hmem : cv ∈ db.cv_files)
    (hnone : ∀ e ∈ db.extracted_info, e.cv_file_id ≠ cv.id) :
    summarize db cv =
      ⟨cv.id, cv.filename, cv.uploaded_at, cv.file_size, "Unknown", ""⟩ ∧
    (⟨cv.id, cv.filename, cv.uploaded_at, cv.file_size, "Unknown", ""⟩ : CVSummary) ∈
      list_cvs db := by
  have hfind : db.extracted_info.find? (fun e => e.cv_file_id == cv.id) = none := by
    rw [List.find?_eq_none]
    intro e he
    simpa using hnone e he
  have hsum : summarize db cv =
      ⟨cv.id, cv.filename, cv.uploaded_at, cv.file_size, "Unknown", ""⟩ := by
    rw [summarize, hfind]
  refine ⟨hsum, ?_⟩
  rw [← hsum]
  exact List.mem_map_of_mem _ hmem

/-- Claim C9, witnessed at a database holding one CV-file row and no
extracted-info row. -/
theorem claim_C9_witness :
    ((⟨7, 1, "a.pdf", "uploads/a.pdf", 3, "txt", 0⟩ : CVFileRec) ∈
      (⟨[], [⟨7, 1, "a.pdf", "uploads/a.pdf", 3, "txt", 0⟩], [], 1, 8, 1⟩ : DB).cv_files) ∧
    (∀ e ∈ (⟨[], [⟨7, 1, "a.pdf", "uploads/a.pdf", 3, "txt", 0⟩], [], 1, 8, 1⟩ : DB).extracted_info,
      e.cv_file_id ≠ (⟨7, 1, "a.pdf", "uploads/a.pdf", 3, "txt", 0⟩ : CVFileRec).id) ∧
    (summarize ⟨[], [⟨7, 1, "a.pdf", "uploads/a.pdf", 3, "txt", 0⟩], [], 1, 8, 1⟩
        ⟨7, 1, "a.pdf", "uploads/a.pdf", 3, "txt", 0⟩ =
      ⟨7, "a.pdf", 0, 3, "Unknown", ""⟩ ∧
     (⟨7, "a.pdf", 0, 3, "Unknown", ""⟩ : CVSummary) ∈
       list_cvs ⟨[], [⟨7, 1, "a.pdf", "uploads/a.pdf", 3, "txt", 0⟩], [], 1, 8, 1⟩) :=
  ⟨by decide, by decide,
   claim_C9 ⟨[], [⟨7, 1, "a.pdf", "uploads/a.pdf", 3, "txt", 0⟩], [], 1, 8, 1⟩
     ⟨7, 1, "a.pdf", "uploads/a.pdf", 3, "txt", 0⟩ (by decide) (by decide)⟩


theorem claim_C6 (sys : Sys) (filename content : String) (user_id : Option Nat)
    (hext : validExt filename = true)
    (hcv : ∀ c ∈ sys.db.cv_files, c.id < sys.db.nextCvId)
    (hei : ∀ e ∈ sys.db.extracted_info, e.cv_file_id < sys.db.nextCvId) :
    (upload_cv sys filename content user_id none).1 =
      .ok sys.db.nextCvId sys.db.nextExtId (analyze_cv_text (extract_text_from_file content)) ∧
    (∃ cv : CVFileRec,
      get_cv_analysis (upload_cv sys filename content user_id none).2.db sys.db.nextCvId =
        .ok cv
          ⟨sys.db.nextExtId,
           (analyze_cv_text (extract_text_from_file content)).name,
           (analyze_cv_text (extract_text_from_file content)).email,
           (analyze_cv_text (extract_text_from_file content)).phone,
           (analyze_cv_text (extract_text_from_file content)).address,
           some (.arr (analyze_cv_text (extract_text_from_file content)).education),
           some (.arr (analyze_cv_text (extract_text_from_file content)).experience),
           some (.arr (analyze_cv_text (extract_text_from_file content)).skills),
           some (.arr (analyze_cv_text (extract_text_from_file content)).languages),
           sys.time + 1⟩) := by
  have hf1 : List.find? (fun c => c.id == sys.db.nextCvId) sys.db.cv_files = none := by
    rw [List.find?_eq_none]
    intro c hc
    simp [Nat.ne_of_lt (hcv c hc)]
  have hf2 : List.find? (fun e => e.cv_file_id == sys.db.nextCvId) sys.db.extracted_info = none := by
    rw [List.find?_eq_none]
    intro e he
    simp [Nat.ne_of_lt (hei e he)]
  cases user_id with
  | none =>
    constructor
    · simp [upload_cv, hext]
    · refine ⟨⟨sys.db.nextCvId, sys.db.nextUserId, filename, "uploads/" ++ filename,
        content.length, extract_text_from_file content, sys.time⟩, ?_⟩
      simp [upload_cv, hext, get_cv_analysis, hf1, hf2, decodeCol_dumps_arr]
  | some uid =>
    constructor
    · simp [upload_cv, hext]
    · refine ⟨⟨sys.db.nextCvId, uid, filename, "uploads/" ++ filename,
        content.length, extract_text_from_file content, sys.time⟩, ?_⟩
      simp [upload_cv, hext, get_cv_analysis, hf1, hf2, decodeCol_dumps_arr]


/-- Claim C6, witnessed at a concrete upload into the empty state. -/
theorem claim_C6_witness :
    validExt "cv.pdf" = true ∧
    (∀ c ∈ emptySys.db.cv_files, c.id < emptySys.db.nextCvId) ∧
    (∀ e ∈ emptySys.db.extracted_info, e.cv_file_id < emptySys.db.nextCvId) ∧
    ((upload_cv emptySys "cv.pdf" "Jo\njo@a.b\nSkills: C, Rust" none none).1 =
      .ok emptySys.db.nextCvId emptySys.db.nextExtId
        (analyze_cv_text (extract_text_from_file "Jo\njo@a.b\nSkills: C, Rust")) ∧
     (∃ cv : CVFileRec,
      get_cv_analysis (upload_cv emptySys "cv.pdf" "Jo\njo@a.b\nSkills: C, Rust" none none).2.db
          emptySys.db.nextCvId =
        .ok cv
          ⟨emptySys.db.nextExtId,
           (analyze_cv_text (extract_text_from_file "Jo\njo@a.b\nSkills: C, Rust")).name,
           (analyze_cv_text (extract_text_from_file "Jo\njo@a.b\nSkills: C, Rust")).email,
           (analyze_cv_text (extract_text_from_file "Jo\njo@a.b\nSkills: C, Rust")).phone,
           (analyze_cv_text (extract_text_from_file "Jo\njo@a.b\nSkills: C, Rust")).address,
           some (.arr (analyze_cv_text (extract_text_from_file "Jo\njo@a.b\nSkills: C, Rust")).education),
           some (.arr (analyze_cv_text (extract_text_from_file "Jo\njo@a.b\nSkills: C, Rust")).experience),
           some (.arr (analyze_cv_text (extract_text_from_file "Jo\njo@a.b\nSkills: C, Rust")).skills),
           some (.arr (analyze_cv_text (extract_text_from_file "Jo\njo@a.b\nSkills: C, Rust")).languages),
           emptySys.time + 1⟩)) :=
  ⟨by decide, by decide, by decide,
   claim_C6 emptySys "cv.pdf" "Jo\njo@a.b\nSkills: C, Rust" none
     (by decide) (by decide) (by decide)⟩

/-- Claim C8: two failure-free uploads into the empty state (with no
`user_id` supplied) produce exactly two listing entries, in upload order,
each carrying the id, the upload's filename, the upload time, the content
size, and the name and email the extractor found — the email being the same
email stored on the user row created as the owner of that upload. -/
theorem claim_C8 (f1 c1 f2 c2 : String)
    (h1 : validExt f1 = true) (h2 : validExt f2 = true) :
    list_cvs ((upload_cv (upload_cv emptySys f1 c1 none none).2 f2 c2 none none).2).db =
      [⟨1, f1, 0, c1.length,
        (analyze_cv_text (extract_text_from_file c1)).name,
        (analyze_cv_text (extract_text_from_file c1)).email⟩,
       ⟨2, f2, 1, c2.length,
        (analyze_cv_text (extract_text_from_file c2)).name,
        (analyze_cv_text (extract_text_from_file c2)).email⟩] ∧
    ((upload_cv (upload_cv emptySys f1 c1 none none).2 f2 c2 none none).2).db.users =
      [⟨1, (analyze_cv_text (extract_text_from_file c1)).name,
           (analyze_cv_text (extract_text_from_file c1)).email⟩,
       ⟨2, (analyze_cv_text (extract_text_from_file c2)).name,
           (analyze_cv_text (extract_text_from_file c2)).email⟩] := by
  constructor
  · simp [upload_cv, h1, h2, emptySys, list_cvs, summarize, List.find?]
  · simp [upload_cv, h1, h2, emptySys]


/-- Claim C8, witnessed at two concrete uploads. -/
theorem claim_C8_witness :
    validExt "a.pdf" = true ∧ validExt "b.docx" = true ∧
    (list_cvs ((upload_cv (upload_cv emptySys "a.pdf" "Ann\nann@x.y" none none).2
        "b.docx" "Bob\nbob@x.y" none none).2).db =
      [⟨1, "a.pdf", 0, ("Ann\nann@x.y" : String).length,
        (analyze_cv_text (extract_text_from_file "Ann\nann@x.y")).name,
        (analyze_cv_text (extract_text_from_file "Ann\nann@x.y")).email⟩,
       ⟨2, "b.docx", 1, ("Bob\nbob@x.y" : String).length,
        (analyze_cv_text (extract_text_from_file "Bob\nbob@x.y")).name,
        (analyze_cv_text (extract_text_from_file "Bob\nbob@x.y")).email⟩] ∧
     ((upload_cv (upload_cv emptySys "a.pdf" "Ann\nann@x.y" none none).2
        "b.docx" "Bob\nbob@x.y" none none).2).db.users =
      [⟨1, (analyze_cv_text (extract_text_from_file "Ann\nann@x.y")).name,
           (analyze_cv_text (extract_text_from_file "Ann\nann@x.y")).email⟩,
       ⟨2, (analyze_cv_text (extract_text_from_file "Bob\nbob@x.y")).name,
           (analyze_cv_text (extract_text_from_file "Bob\nbob@x.y")).email⟩]) :=
  ⟨by decide, by decide,
   claim_C8 "a.pdf" "Ann\nann@x.y" "b.docx" "Bob\nbob@x.y" (by decide) (by decide)⟩

/-- A stored column value the fetch handler can decode: either empty (the
`else []` branch) or accepted by `json.loads`. -/
abbrev colOk (s : String) : Prop :=
  s ≠ "" → (jsonLoadsJ s).isSome = true

/-- The four list-valued columns of a row are decodable. -/
abbrev rowOk (e : ExtractedInfoRec) : Prop :=
  colOk e.education ∧ colOk e.experience ∧ colOk e.skills ∧ colOk e.languages

/-- Database invariant: every stored extracted-info row keeps JSON-encoded
text in its list-valued columns. -/
abbrev listColsDecodable (db : DB) : Prop :=
  ∀ e ∈ db.extracted_info, rowOk e

theorem colOk_jsonDumpsJ (v : JVal) : colOk (jsonDumpsJ v) :=
  fun _ => colOk_dumps v

/-- The extracted-info row a failure-free upload appends. -/
def newExtractedRow (db0 : DB) (t : Nat) (d : CVData) : ExtractedInfoRec :=
  ⟨db0.nextExtId, db0.nextCvId, d.name, d.email, d.phone, d.address,
   jsonDumpsJ (.arr d.education), jsonDumpsJ (.arr d.experience),
   jsonDumpsJ (.arr d.skills), jsonDumpsJ (.arr d.languages),
   jsonDumpsCVData d, t⟩

theorem rowOk_newExtractedRow (db0 : DB) (t : Nat) (d : CVData) :
    rowOk (newExtractedRow db0 t d) := by
  exact ⟨fun _ => colOk_dumps (JVal.arr d.education),
    fun _ => colOk_dumps (JVal.arr d.experience),
    fun _ => colOk_dumps (JVal.arr d.skills),
    fun _ => colOk_dumps (JVal.arr d.languages)⟩

/-- The upload handler either leaves the `extracted_info` table unchanged or
appends one row whose list-valued columns are `json.dumps` output. -/
theorem upload_extracted_cases (sys : Sys) (filename content : String)
    (user_id : Option Nat) (failAt : Option FailPoint) :
    (upload_cv sys filename content user_id failAt).2.db.extracted_info =
      sys.db.extracted_info ∨
    (∃ e0 : ExtractedInfoRec,
      (upload_cv sys filename content user_id failAt).2.db.extracted_info =
        sys.db.extracted_info ++ [e0] ∧ rowOk e0) := by
  by_cases hv : validExt filename
  · cases user_id with
    | none =>
      rcases failAt with _ | fp
      · right
        refine ⟨newExtractedRow sys.db (sys.time + 1)
          (analyze_cv_text (extract_text_from_file content)), ?_,
          rowOk_newExtractedRow _ _ _⟩
        simp [upload_cv, hv, newExtractedRow]
      · cases fp <;> (left; simp [upload_cv, hv])
    | some uid =>
      rcases failAt with _ | fp
      · right
        refine ⟨newExtractedRow sys.db (sys.time + 1)
          (analyze_cv_text (extract_text_from_file content)), ?_,
          rowOk_newExtractedRow _ _ _⟩
        simp [upload_cv, hv, newExtractedRow]
      · cases fp with
        | commitUser =>
          right
          refine ⟨newExtractedRow sys.db (sys.time + 1)
            (analyze_cv_text (extract_text_from_file content)), ?_,
            rowOk_newExtractedRow _ _ _⟩
          simp [upload_cv, hv, newExtractedRow]
        | saveFile => left; simp [upload_cv, hv]
        | extractText => left; simp [upload_cv, hv]
        | analyzeText => left; simp [upload_cv, hv]
        | commitCVFile => left; simp [upload_cv, hv]
        | commitExtracted => left; simp [upload_cv, hv]
  · left
    simp [upload_cv, hv]

/-- One `setattr` keeps the decodability of the four list-valued columns:
it either rewrites one of them to `json.dumps` output or leaves them
alone. -/
theorem rowOk_applyField (r : ExtractedInfoRec) (f : String) (v : JVal)
    (h : rowOk r) : rowOk (applyField r f v) := by
  obtain ⟨he, hx, hs, hl⟩ := h
  by_cases h1 : f = "education"
  · subst h1
    exact ⟨colOk_jsonDumpsJ v, hx, hs, hl⟩
  by_cases h2 : f = "experience"
  · subst h2
    exact ⟨he, colOk_jsonDumpsJ v, hs, hl⟩
  by_cases h3 : f = "skills"
  · subst h3
    exact ⟨he, hx, colOk_jsonDumpsJ v, hl⟩
  by_cases h4 : f = "languages"
  · subst h4
    exact ⟨he, hx, hs, colOk_jsonDumpsJ v⟩
  by_cases h5 : f = "name"
  · subst h5
    cases v with
    | s x => exact ⟨he, hx, hs, hl⟩
    | arr l => exact ⟨he, hx, hs, hl⟩
  by_cases h6 : f = "email"
  · subst h6
    cases v with
    | s x => exact ⟨he, hx, hs, hl⟩
    | arr l => exact ⟨he, hx, hs, hl⟩
  by_cases h7 : f = "phone"
  · subst h7
    cases v with
    | s x => exact ⟨he, hx, hs, hl⟩
    | arr l => exact ⟨he, hx, hs, hl⟩
  by_cases h8 : f = "address"
  · subst h8
    cases v with
    | s x => exact ⟨he, hx, hs, hl⟩
    | arr l => exact ⟨he, hx, hs, hl⟩
  by_cases h9 : f = "raw_data"
  · subst h9
    cases v with
    | s x => exact ⟨he, hx, hs, hl⟩
    | arr l => exact ⟨he, hx, hs, hl⟩
  have hr : applyField r f v = r := by
    simp [applyField, h1, h2, h3, h4, h5, h6, h7, h8, h9]
  rw [hr]
  exact ⟨he, hx, hs, hl⟩

theorem rowOk_applyUpdate (upd : List (String × JVal)) (r : ExtractedInfoRec)
    (h : rowOk r) : rowOk (applyUpdate upd r) := by
  induction upd generalizing r with
  | nil => exact h
  | cons fv rest ih =>
    exact ih (applyField r fv.1 fv.2) (rowOk_applyField r fv.1 fv.2 h)

/-- Claim C10: both write paths keep the list-valued columns JSON-encoded —
the upload handler (under any injected failure) and the partial-update
handler (under any payload) preserve the invariant that `json.loads`
succeeds on every non-empty stored value, so the fetch handler's decoding
succeeds. -/
theorem claim_C10 (sys : Sys) (filename content : String) (user_id : Option Nat)
    (failAt : Option FailPoint) (db : DB) (cv_id : Nat)
    (upd : List (String × JVal))
    (h1 : listColsDecodable sys.db) (h2 : listColsDecodable db) :
    listColsDecodable (upload_cv sys filename content user_id failAt).2.db ∧
    listColsDecodable (update_cv_info db cv_id upd).2 := by
  constructor
  · rcases upload_extracted_cases sys filename content user_id failAt with hc | ⟨e0, hc, he0⟩
    · intro e he
      rw [hc] at he
      exact h1 e he
    · intro e he
      rw [hc] at he
      rcases List.mem_append.mp he with hmem | hmem
      · exact h1 e hmem
      · rw [List.mem_singleton.mp hmem]
        exact he0
  · rw [update_cv_info]
    split
    · intro e he
      rcases mem_updateFirst _ _ _ _ he with hmem | ⟨x, hx, hex⟩
      · exact h2 e hmem
      · rw [hex]
        exact rowOk_applyUpdate upd x (h2 x hx)
    · exact h2

/-- Claim C10, witnessed at a concrete state already holding one row written
by an upload, a further upload, and an update with a list-valued payload. -/
theorem claim_C10_witness :
    listColsDecodable (upload_cv emptySys "cv.pdf" "Jo\njo@a.b" none none).2.db ∧
    listColsDecodable ⟨[], [], [⟨1, 1, "N", "E", "P", "A", "", "", "", "", "r", 0⟩], 1, 1, 2⟩ ∧
    (listColsDecodable
        (upload_cv (upload_cv emptySys "cv.pdf" "Jo\njo@a.b" none none).2
          "b.doc" "Bo" none (some .commitExtracted)).2.db ∧
     listColsDecodable
        (update_cv_info ⟨[], [], [⟨1, 1, "N", "E", "P", "A", "", "", "", "", "r", 0⟩], 1, 1, 2⟩ 1
          [("skills", JVal.arr ["C", "Rust"]), ("name", JVal.s "M")]).2) :=
  ⟨by decide, by decide,
   claim_C10 (upload_cv emptySys "cv.pdf" "Jo\njo@a.b" none none).2 "b.doc" "Bo" none
     (some .commitExtracted)
     ⟨[], [], [⟨1, 1, "N", "E", "P", "A", "", "", "", "", "r", 0⟩], 1, 1, 2⟩ 1
     [("skills", JVal.arr ["C", "Rust"]), ("name", JVal.s "M")]
     (by decide) (by decide)⟩

end CVAnalyzer
